import Mathlib

/-!
Verification development for the riscvos memory-management and
trap-classification core.  The definitions below are a shallow embedding of
`src/trap.rs`, `src/page_allocator.rs` and `src/page_table.rs`: machine
integers (`u64`) are modelled as `Nat` (all the operations used by the source
stay below `2^64` on the inputs considered), pointers to page frames are the
frame addresses themselves, and physical memory holding page tables is an
explicit function from a table's frame address and entry index to the raw
entry value.  Fallible operations return `Except`/`Option`; a Rust panic is
modelled as `Option.none`.
-/

set_option maxRecDepth 4096

deriving instance DecidableEq for Except

namespace RiscvOS

/-- Complement of a value within a 64-bit word: the model of Rust `!x` on
`u64` (xor with the all-ones word). -/
def compl64 (x : Nat) : Nat := (2 ^ 64 - 1) ^^^ x

/-! ## Trap classifier (src/trap.rs) -/

/-- The `TrapCause` enum of `src/trap.rs`. -/
inductive TrapCause
  | SoftwareInterrupt
  | TimerInterrupt
  | ExternalInterrupt
  | InstructionAddressMisaligned
  | InstructionAccessFault
  | IllegalInstruction
  | Breakpoint
  | LoadAddressMisaligned
  | LoadAccessFault
  | StoreAddressMisaligned
  | StoreAccessFault
  | UserEnvironmentCall
  | SupervisorEnvironmentCall
  | InstructionPageFault
  | LoadPageFault
  | StorePageFault
  | ReservedInterrupt
  | PlatformInterrupt
  | ReservedException
  | CustomException
  deriving DecidableEq

/-- The `impl From<u64> for TrapCause` of `src/trap.rs`, arm by arm in source
order.  `interrupt_bit` is `val & (1 << 63)` exactly as in the source (so it
is either `0` or `2^63`, never `1`); the final unreachable-looking arm of the
Rust `match` is a panic, modelled as `none`. -/
def TrapCause.from_u64 (val : Nat) : Option TrapCause :=
  if val &&& (1 <<< 63) = 1 ∧ val &&& ((1 <<< 63) - 1) = 1 then some .SoftwareInterrupt
  else if val &&& (1 <<< 63) = 1 ∧ val &&& ((1 <<< 63) - 1) = 5 then some .TimerInterrupt
  else if val &&& (1 <<< 63) = 1 ∧ val &&& ((1 <<< 63) - 1) = 9 then some .ExternalInterrupt
  else if val &&& (1 <<< 63) = 1 ∧ val &&& ((1 <<< 63) - 1) < 16 then some .ReservedInterrupt
  else if val &&& (1 <<< 63) = 1 then some .PlatformInterrupt
  else if val &&& (1 <<< 63) = 0 ∧ val &&& ((1 <<< 63) - 1) = 0 then some .InstructionAddressMisaligned
  else if val &&& (1 <<< 63) = 0 ∧ val &&& ((1 <<< 63) - 1) = 1 then some .InstructionAccessFault
  else if val &&& (1 <<< 63) = 0 ∧ val &&& ((1 <<< 63) - 1) = 2 then some .IllegalInstruction
  else if val &&& (1 <<< 63) = 0 ∧ val &&& ((1 <<< 63) - 1) = 3 then some .Breakpoint
  else if val &&& (1 <<< 63) = 0 ∧ val &&& ((1 <<< 63) - 1) = 4 then some .LoadAddressMisaligned
  else if val &&& (1 <<< 63) = 0 ∧ val &&& ((1 <<< 63) - 1) = 5 then some .LoadAccessFault
  else if val &&& (1 <<< 63) = 0 ∧ val &&& ((1 <<< 63) - 1) = 6 then some .StoreAddressMisaligned
  else if val &&& (1 <<< 63) = 0 ∧ val &&& ((1 <<< 63) - 1) = 7 then some .StoreAccessFault
  else if val &&& (1 <<< 63) = 0 ∧ val &&& ((1 <<< 63) - 1) = 8 then some .UserEnvironmentCall
  else if val &&& (1 <<< 63) = 0 ∧ val &&& ((1 <<< 63) - 1) = 9 then some .SupervisorEnvironmentCall
  else if val &&& (1 <<< 63) = 0 ∧ val &&& ((1 <<< 63) - 1) = 12 then some .InstructionPageFault
  else if val &&& (1 <<< 63) = 0 ∧ val &&& ((1 <<< 63) - 1) = 13 then some .LoadPageFault
  else if val &&& (1 <<< 63) = 0 ∧ val &&& ((1 <<< 63) - 1) = 15 then some .StorePageFault
  else if val &&& (1 <<< 63) = 0 ∧ 24 ≤ val &&& ((1 <<< 63) - 1) ∧ val &&& ((1 <<< 63) - 1) ≤ 31 then some .CustomException
  else if val &&& (1 <<< 63) = 0 ∧ 48 ≤ val &&& ((1 <<< 63) - 1) ∧ val &&& ((1 <<< 63) - 1) ≤ 63 then some .CustomException
  else if val &&& (1 <<< 63) = 0 then some .ReservedException
  else none

/-- Exception classification as the specification describes it, for raw
values whose interrupt bit is clear: a function of the 63-bit exception code
alone.  This is the spec-side definition used to state the refinement claim
about non-interrupt causes. -/
def spec_exception_cause (code : Nat) : TrapCause :=
  if code = 0 then .InstructionAddressMisaligned
  else if code = 1 then .InstructionAccessFault
  else if code = 2 then .IllegalInstruction
  else if code = 3 then .Breakpoint
  else if code = 4 then .LoadAddressMisaligned
  else if code = 5 then .LoadAccessFault
  else if code = 6 then .StoreAddressMisaligned
  else if code = 7 then .StoreAccessFault
  else if code = 8 then .UserEnvironmentCall
  else if code = 9 then .SupervisorEnvironmentCall
  else if code = 12 then .InstructionPageFault
  else if code = 13 then .LoadPageFault
  else if code = 15 then .StorePageFault
  else if 24 ≤ code ∧ code ≤ 31 then .CustomException
  else if 48 ≤ code ∧ code ≤ 63 then .CustomException
  else .ReservedException

/-! ## Address types (src/page_table.rs) -/

/-- The `PhysicalAddress` struct. -/
structure PhysicalAddress where
  address : Nat
  deriving DecidableEq

/-- The `VirtualAddressError` enum. -/
inductive VirtualAddressError
  | OutOfVirtualMemoryRange
  deriving DecidableEq

/-- The `VirtualAddress` struct: a raw 64-bit value. -/
structure VirtualAddress where
  value : Nat
  deriving DecidableEq

/-- `VirtualAddress::page_table_index`: `(self.value >> (12 + level * 9)) &
((1 << 9) - 1)` (in Rust, `+` binds tighter than `>>`). -/
def VirtualAddress.page_table_index (v : VirtualAddress) (level : Nat) : Nat :=
  (v.value >>> (12 + level * 9)) &&& ((1 <<< 9) - 1)

/-- `VirtualAddress::offset`: `self.value & !((1 << 12) - 1)`.  Note the
source applies the *complement* of the low-bits mask. -/
def VirtualAddress.offset (v : VirtualAddress) : Nat :=
  v.value &&& compl64 ((1 <<< 12) - 1)

/-- `impl TryFrom<u64> for VirtualAddress`: reject when `value & !((1 << 39)
- 1)` is nonzero, else sign-extend (or truncate) according to bit 38. -/
def VirtualAddress.try_from (value : Nat) : Except VirtualAddressError VirtualAddress :=
  if value &&& compl64 ((1 <<< 39) - 1) ≠ 0 then .error .OutOfVirtualMemoryRange
  else if (value >>> 38) &&& 1 = 1 then .ok ⟨value ||| compl64 ((1 <<< 39) - 1)⟩
  else .ok ⟨value &&& compl64 (compl64 ((1 <<< 39) - 1))⟩

/-! ## Page table entries (src/page_table.rs) -/

/-- The `PageTableEntryMode` enum. -/
inductive PageTableEntryMode
  | PageTablePointer
  | ReadOnly
  | ReadWrite
  | ExecuteOnly
  | ReadExecute
  | ReadWriteExecute
  deriving DecidableEq

/-- The `PageTableEntry` struct: a raw 64-bit descriptor. -/
structure PageTableEntry where
  value : Nat
  deriving DecidableEq

/-- `PageTableEntry::is_valid`: `self.value & (1 << 0) == 1`. -/
def PageTableEntry.is_valid (e : PageTableEntry) : Bool :=
  e.value &&& (1 <<< 0) == 1

/-- `PageTableEntry::is_readable`: `self.value & (1 << 1) == 1` (the source
compares the masked value against `1`, not against zero). -/
def PageTableEntry.is_readable (e : PageTableEntry) : Bool :=
  e.value &&& (1 <<< 1) == 1

/-- `PageTableEntry::is_writable`: `self.value & (1 << 2) == 1`. -/
def PageTableEntry.is_writable (e : PageTableEntry) : Bool :=
  e.value &&& (1 <<< 2) == 1

/-- `PageTableEntry::is_executable`: `self.value & (1 << 3) == 1`. -/
def PageTableEntry.is_executable (e : PageTableEntry) : Bool :=
  e.value &&& (1 <<< 3) == 1

/-- `PageTableEntry::is_leaf`: `self.value & 0b1110 > 0`. -/
def PageTableEntry.is_leaf (e : PageTableEntry) : Bool :=
  decide (e.value &&& 0b1110 > 0)

/-- `PageTableEntry::is_user_accessible`: `self.value & (1 << 4) == 1`. -/
def PageTableEntry.is_user_accessible (e : PageTableEntry) : Bool :=
  e.value &&& (1 <<< 4) == 1

/-- `PageTableEntry::is_global`: `self.value & (1 << 5) == 1`. -/
def PageTableEntry.is_global (e : PageTableEntry) : Bool :=
  e.value &&& (1 <<< 5) == 1

/-- `PageTableEntry::has_been_accessed`: `self.value & (1 << 6) == 1`. -/
def PageTableEntry.has_been_accessed (e : PageTableEntry) : Bool :=
  e.value &&& (1 <<< 6) == 1

/-- `PageTableEntry::is_dirty`: `self.value & (1 << 7) == 1`. -/
def PageTableEntry.is_dirty (e : PageTableEntry) : Bool :=
  e.value &&& (1 <<< 7) == 1

/-- `PageTableEntry::physical_page`: `(self.value >> 10) & ((1 << 44) - 1)`. -/
def PageTableEntry.physical_page (e : PageTableEntry) : Nat :=
  (e.value >>> 10) &&& ((1 <<< 44) - 1)

/-- The `PageTableEntryBuilder` struct. -/
structure PageTableEntryBuilder where
  mode : PageTableEntryMode
  user : Bool
  global : Bool
  page_number : Nat
  invalid : Option Nat

/-- `PageTableEntryBuilder::new(page_number, mode)`. -/
def PageTableEntryBuilder.new (page_number : Nat) (mode : PageTableEntryMode) :
    PageTableEntryBuilder :=
  ⟨mode, false, false, page_number, none⟩

/-- `PageTableEntryBuilder::invalid(value)`: records `value & (u64::MAX - 1)`
to be used verbatim as the entry. -/
def PageTableEntryBuilder.invalid_of (value : Nat) : PageTableEntryBuilder :=
  ⟨.PageTablePointer, false, false, 0, some (value &&& (2 ^ 64 - 2))⟩

/-- `impl From<PageTableEntryBuilder> for PageTableEntry`: start from the
valid bit, or in the mode's permission bits, the user/global bits, and the
shifted page number. -/
def PageTableEntry.from_builder (b : PageTableEntryBuilder) : PageTableEntry :=
  match b.invalid with
  | some value => ⟨value⟩
  | none =>
    let v1 : Nat := 1
    let v2 : Nat :=
      match b.mode with
      | .PageTablePointer => v1
      | .ReadOnly => v1 ||| (1 <<< 1)
      | .ReadWrite => v1 ||| ((1 <<< 1) + (1 <<< 2))
      | .ExecuteOnly => v1 ||| (1 <<< 3)
      | .ReadExecute => v1 ||| ((1 <<< 1) + (1 <<< 3))
      | .ReadWriteExecute => v1 ||| ((1 <<< 1) + (1 <<< 2) + (1 <<< 3))
    let v3 : Nat := if b.user then v2 ||| (1 <<< 4) else v2
    let v4 : Nat := if b.global then v3 ||| (1 <<< 5) else v3
    ⟨v4 ||| ((b.page_number >>> 12) <<< 10)⟩

/-- `PageTableEntryBuilder::build`. -/
def PageTableEntryBuilder.build (b : PageTableEntryBuilder) : PageTableEntry :=
  PageTableEntry.from_builder b

/-! ## Page frame allocator (src/page_allocator.rs)

The intrusive free list (each free frame stores the address of the next free
frame in its own first bytes) is modelled by the list of frame addresses in
chain order: the list head is the `free_list` pointer and the tail is the
chain read out of frame memory. -/

/-- `PAGE_SIZE` from `src/page_allocator.rs`. -/
def PAGE_SIZE : Nat := 4096

/-- The `PageAllocationError` enum. -/
inductive PageAllocationError
  | NoPagesAvailable
  deriving DecidableEq

/-- The `PageRange` iterator: yields `next_page` while `next_page ≤
last_page`, stepping by `PAGE_SIZE`. -/
def page_range (next_page last_page : Nat) : List Nat :=
  if next_page > last_page then []
  else next_page :: page_range (next_page + PAGE_SIZE) last_page
termination_by last_page + 1 - next_page
decreasing_by simp [PAGE_SIZE] at *; omega

namespace PageAllocator

/-- `PageAllocator::dealloc(page)`: link the frame in front of the current
free-list head. -/
def dealloc (free_list : List Nat) (page : Nat) : List Nat :=
  page :: free_list

/-- `PageAllocator::new(heap_start, heap_end)`: start from an empty free
list and `dealloc` every frame of the range in address order. -/
def new (heap_start heap_end : Nat) : List Nat :=
  (page_range heap_start heap_end).foldl dealloc []

/-- `PageAllocator::alloc()`: pop the free-list head, or fail with
`NoPagesAvailable` when the list is empty.  (The zero-fill of the returned
frame acts on frame memory, which this list-level model does not carry; the
memory-level model below performs it.) -/
def alloc (free_list : List Nat) : Except PageAllocationError (Nat × List Nat) :=
  match free_list with
  | [] => .error .NoPagesAvailable
  | page :: rest => .ok (page, rest)

/-- Run `n` successive `alloc` calls, collecting each call's result and the
final free list. -/
def drain (free_list : List Nat) : Nat → List (Except PageAllocationError Nat) × List Nat
  | 0 => ([], free_list)
  | n + 1 =>
    match alloc free_list with
    | .error e =>
      let r := drain free_list n
      (.error e :: r.1, r.2)
    | .ok (page, rest) =>
      let r := drain rest n
      (.ok page :: r.1, r.2)

end PageAllocator

/-! ## Page tables in memory and the address space (src/page_table.rs)

`Memory` maps a table's frame address and an entry index to the raw 64-bit
entry stored there; it stands for the physical memory that the Rust code
reaches through raw pointers.  A fresh frame handed out by `alloc` is
zero-filled, which as a page table means every entry is `0` (invalid). -/

/-- Physical memory holding page tables: frame address → entry index → raw
entry value. -/
def Memory : Type := Nat → Nat → Nat

/-- Write one page-table entry (the model of `pte_ptr.write(..)`). -/
def Memory.write (mem : Memory) (table idx val : Nat) : Memory :=
  fun t i => if t = table ∧ i = idx then val else mem t i

/-- Zero-fill one frame (the model of `alloc`'s `write_bytes(.., 0, ..)`). -/
def Memory.zero_frame (mem : Memory) (page : Nat) : Memory :=
  fun t i => if t = page then 0 else mem t i

namespace PageTable

/-- `PageTable::do_walk(virt, level)`: read the entry for this level; at
level 0 return the slot (table address and index); otherwise stop on an
invalid entry or descend into the table at `physical_page() << 12`. -/
def do_walk (mem : Memory) (table : Nat) (virt : VirtualAddress) : Nat → Option (Nat × Nat)
  | 0 => some (table, virt.page_table_index 0)
  | level + 1 =>
    let pte : PageTableEntry := ⟨mem table (virt.page_table_index (level + 1))⟩
    if pte.is_valid then do_walk mem (pte.physical_page <<< 12) virt level
    else none

/-- `PageTable::walk`: `do_walk` from the root at level 2. -/
def walk (mem : Memory) (table : Nat) (virt : VirtualAddress) : Option (Nat × Nat) :=
  do_walk mem table virt 2

/-- `PageTable::do_walk_and_map(virt, level, allocator)`: like `do_walk`,
but an invalid intermediate entry triggers allocation of a fresh
(zero-filled) table frame and installation of a `PageTablePointer` entry
before descending into the fresh frame. -/
def do_walk_and_map (virt : VirtualAddress) (table : Nat) (mem : Memory) (free_list : List Nat) :
    Nat → Except PageAllocationError (Nat × Nat × Memory × List Nat)
  | 0 => .ok (table, virt.page_table_index 0, mem, free_list)
  | level + 1 =>
    let idx := virt.page_table_index (level + 1)
    let pte : PageTableEntry := ⟨mem table idx⟩
    if pte.is_valid then do_walk_and_map virt (pte.physical_page <<< 12) mem free_list level
    else
      match free_list with
      | [] => .error .NoPagesAvailable
      | new_page :: rest =>
        let mem1 := (mem.zero_frame new_page).write table idx
          ((PageTableEntryBuilder.new new_page .PageTablePointer).build).value
        do_walk_and_map virt new_page mem1 rest level

/-- `PageTable::walk_and_map`: `do_walk_and_map` from the root at level 2. -/
def walk_and_map (virt : VirtualAddress) (table : Nat) (mem : Memory) (free_list : List Nat) :
    Except PageAllocationError (Nat × Nat × Memory × List Nat) :=
  do_walk_and_map virt table mem free_list 2

/-- The table addresses a `do_walk` from `table` at `level` visits (the walk
path), used to state that a fresh frame is disjoint from the tables the walk
traverses. -/
def table_path (mem : Memory) (table : Nat) (virt : VirtualAddress) : Nat → List Nat
  | 0 => [table]
  | level + 1 =>
    let pte : PageTableEntry := ⟨mem table (virt.page_table_index (level + 1))⟩
    if pte.is_valid then table :: table_path mem (pte.physical_page <<< 12) virt level
    else [table]

end PageTable

/-- The `VirtualMemory` struct: its page allocator (free list), the physical
memory the tables live in, and the root table's frame address. -/
structure VirtualMemory where
  mem : Memory
  free_list : List Nat
  root_table : Nat

namespace VirtualMemory

/-- `self.page_allocator.alloc()` as seen by `VirtualMemory`: pop the
free-list head and zero-fill the popped frame. -/
def alloc (vm : VirtualMemory) : Except PageAllocationError (Nat × VirtualMemory) :=
  match vm.free_list with
  | [] => .error .NoPagesAvailable
  | page :: rest => .ok (page, ⟨vm.mem.zero_frame page, rest, vm.root_table⟩)

/-- `VirtualMemory::map_to(virt, phys, mode)`: walk-and-map to the level-0
slot and write a leaf entry built from `phys` and `mode` into it. -/
def map_to (vm : VirtualMemory) (virt : VirtualAddress) (phys : Nat)
    (mode : PageTableEntryMode) : Except PageAllocationError VirtualMemory :=
  match PageTable.walk_and_map virt vm.root_table vm.mem vm.free_list with
  | .error e => .error e
  | .ok (table, idx, mem, free_list) =>
    .ok ⟨mem.write table idx ((PageTableEntryBuilder.new phys mode).build).value,
      free_list, vm.root_table⟩

/-- `VirtualMemory::map(virt, mode)`: allocate a fresh frame and `map_to`
it. -/
def map (vm : VirtualMemory) (virt : VirtualAddress) (mode : PageTableEntryMode) :
    Except PageAllocationError VirtualMemory :=
  match vm.alloc with
  | .error e => .error e
  | .ok (phys, vm1) => vm1.map_to virt phys mode

/-- `VirtualMemory::translate(virt)`: walk; `none` unless the found slot is
a valid leaf; otherwise compose `physical_page() << 12` with the address's
`offset()`. -/
def translate (vm : VirtualMemory) (virt : VirtualAddress) : Option PhysicalAddress :=
  match PageTable.walk vm.mem vm.root_table virt with
  | none => none
  | some (table, idx) =>
    let pte : PageTableEntry := ⟨vm.mem table idx⟩
    if pte.is_leaf && pte.is_valid then
      some ⟨(pte.physical_page <<< 12) ||| virt.offset⟩
    else none

/-- `VirtualMemory::satp()`: `(8 << 60) | (root_table as u64 >> 12)`. -/
def satp (vm : VirtualMemory) : Nat :=
  (8 <<< 60) ||| (vm.root_table >>> 12)

/-- Run `map` and then `translate` on the same address, `none` when the map
fails; the composition the translation claims are stated over. -/
def map_then_translate (vm : VirtualMemory) (virt : VirtualAddress)
    (mode : PageTableEntryMode) : Option PhysicalAddress :=
  match vm.map virt mode with
  | .error _ => none
  | .ok vm1 => vm1.translate virt

end VirtualMemory

/-! ## Concrete machine states used to exercise the model -/

/-- A fresh address space: zeroed memory, root table frame at `0x1000`
(entirely invalid) and three free frames. -/
def vmC3 : VirtualMemory := ⟨fun _ _ => 0, [0x2000, 0x3000, 0x4000], 0x1000⟩

/-- Memory holding a fully mapped path for virtual address 0: the root at
`0x1000` points to `0x2000`, which points to `0x3000`, whose entry 0 is a
read-write leaf for frame `0x4000`. -/
def memC10 : Memory :=
  Memory.write (Memory.write (Memory.write (fun _ _ => 0) 0x1000 0
    ((PageTableEntryBuilder.new 0x2000 .PageTablePointer).build).value) 0x2000 0
    ((PageTableEntryBuilder.new 0x3000 .PageTablePointer).build).value) 0x3000 0
    ((PageTableEntryBuilder.new 0x4000 .ReadWrite).build).value

/-- An address space in which virtual address 0 is already mapped (to frame
`0x4000`) and one further frame (`0x5000`) is free. -/
def vmC10 : VirtualMemory := ⟨memC10, [0x5000], 0x1000⟩

/-- An address space with root table frame at `0x1000`, used to evaluate
`satp`. -/
def vmC8 : VirtualMemory := ⟨fun _ _ => 0, [], 0x1000⟩

/-! ## General bit-arithmetic lemmas -/

theorem and_two_pow_eq_zero_of_lt {x n : Nat} (h : x < 2 ^ n) : x &&& 2 ^ n = 0 := by
  apply Nat.eq_of_testBit_eq
  intro i
  rw [Nat.testBit_and, Nat.zero_testBit]
  rcases eq_or_ne n i with rfl | hne
  · rw [Nat.testBit_lt_two_pow h, Bool.false_and]
  · rw [Nat.testBit_two_pow_of_ne hne, Bool.and_false]

theorem two_pow_sub_two_pow_eq_mul {n m : Nat} (h : n ≤ m) :
    2 ^ m - 2 ^ n = 2 ^ n * (2 ^ (m - n) - 1) := by
  have hm : 2 ^ m = 2 ^ n * 2 ^ (m - n) := by
    rw [← pow_add]
    congr 1
    omega
  rw [hm, Nat.mul_sub, Nat.mul_one]

theorem testBit_high_mask {n m i : Nat} (h : n ≤ m) :
    (2 ^ m - 2 ^ n).testBit i = (decide (n ≤ i) && decide (i < m)) := by
  rw [two_pow_sub_two_pow_eq_mul h, Nat.mul_comm, ← Nat.shiftLeft_eq,
    Nat.testBit_shiftLeft, Nat.testBit_two_pow_sub_one]
  rcases Nat.lt_or_ge i n with hi | hi
  · simp [Nat.not_le.mpr hi]
  · simp only [decide_eq_true (Nat.le_of_lt_succ (Nat.lt_succ_of_le hi))]
    have : i - n < m - n ↔ i < m := by omega
    simp [hi, this]

theorem and_high_mask_eq_zero_iff {v n m : Nat} (hv : v < 2 ^ m) (hnm : n ≤ m) :
    v &&& (2 ^ m - 2 ^ n) = 0 ↔ v < 2 ^ n := by
  constructor
  · intro h0
    by_contra hlt
    have hge : 2 ^ n ≤ v := Nat.le_of_not_lt hlt
    obtain ⟨i, hin, hbit⟩ := Nat.ge_two_pow_implies_high_bit_true hge
    have him : i < m := by
      by_contra him
      have h1 : 2 ^ m ≤ 2 ^ i := Nat.pow_le_pow_right (by omega) (Nat.le_of_not_lt him)
      have h2 := Nat.testBit_implies_ge hbit
      omega
    have hb : (v &&& (2 ^ m - 2 ^ n)).testBit i = true := by
      rw [Nat.testBit_and, hbit, testBit_high_mask hnm]
      simp [hin, him]
    rw [h0, Nat.zero_testBit] at hb
    exact Bool.false_ne_true hb
  · intro hlt
    apply Nat.eq_of_testBit_eq
    intro i
    rw [Nat.testBit_and, Nat.zero_testBit, testBit_high_mask hnm]
    rcases Nat.lt_or_ge i n with hi | hi
    · simp [Nat.not_le.mpr hi]
    · have hvi : v < 2 ^ i := Nat.lt_of_lt_of_le hlt (Nat.pow_le_pow_right (by omega) hi)
      rw [Nat.testBit_lt_two_pow hvi, Bool.false_and]

theorem lor_high_mask_eq_add {v n m : Nat} (hv : v < 2 ^ n) (hnm : n ≤ m) :
    v ||| (2 ^ m - 2 ^ n) = v + (2 ^ m - 2 ^ n) := by
  rw [two_pow_sub_two_pow_eq_mul hnm]
  rw [Nat.or_comm, ← Nat.mul_add_lt_is_or hv, Nat.add_comm]

theorem and_two_pow_ne_one {v k : Nat} (hk : 0 < k) : v &&& 2 ^ k ≠ 1 := by
  intro h
  have h1 : (v &&& 2 ^ k) % 2 = 1 := by rw [h]
  have h2 := (Nat.and_mod_two_eq_one.mp h1).2
  have h3 : (2 : Nat) ^ k % 2 = 0 := by
    rw [Nat.pow_mod]
    simp [Nat.zero_pow hk]
  omega

/-! ## Page-table walk lemmas -/

/-- When a plain `do_walk` already reaches a slot, `do_walk_and_map` follows
the identical path, allocates nothing and changes nothing. -/
theorem do_walk_and_map_of_do_walk (virt : VirtualAddress) (mem : Memory)
    (free_list : List Nat) :
    ∀ (level table : Nat) (s : Nat × Nat),
      PageTable.do_walk mem table virt level = some s →
      PageTable.do_walk_and_map virt table mem free_list level = .ok (s.1, s.2, mem, free_list) := by
  intro level
  induction level with
  | zero =>
    intro table s hs
    simp only [PageTable.do_walk, Option.some.injEq] at hs
    simp [PageTable.do_walk_and_map, ← hs]
  | succ n ih =>
    intro table s hs
    simp only [PageTable.do_walk] at hs
    simp only [PageTable.do_walk_and_map]
    by_cases hv : (⟨mem table (virt.page_table_index (n + 1))⟩ : PageTableEntry).is_valid
    · rw [if_pos hv] at hs
      rw [if_pos hv]
      exact ih _ s hs
    · rw [if_neg hv] at hs
      exact absurd hs (by simp)

/-- Zero-filling a frame that is not on the walk path leaves the walk
unchanged. -/
theorem do_walk_zero_frame_off_path (virt : VirtualAddress) (mem : Memory) (p : Nat) :
    ∀ (level table : Nat), p ∉ PageTable.table_path mem table virt level →
      PageTable.do_walk (mem.zero_frame p) table virt level =
        PageTable.do_walk mem table virt level := by
  intro level
  induction level with
  | zero =>
    intro table _
    simp [PageTable.do_walk]
  | succ n ih =>
    intro table hp
    have htab : table ≠ p := by
      intro he
      apply hp
      unfold PageTable.table_path
      by_cases hv : (⟨mem table (virt.page_table_index (n + 1))⟩ : PageTableEntry).is_valid
      · rw [if_pos hv]
        exact he ▸ List.mem_cons_self _ _
      · rw [if_neg hv]
        exact he ▸ List.mem_singleton.mpr rfl
    have hread : Memory.zero_frame mem p table (virt.page_table_index (n + 1)) =
        mem table (virt.page_table_index (n + 1)) := by
      simp [Memory.zero_frame, htab]
    simp only [PageTable.do_walk, hread]
    by_cases hv : (⟨mem table (virt.page_table_index (n + 1))⟩ : PageTableEntry).is_valid
    · rw [if_pos hv, if_pos hv]
      apply ih
      intro hmem
      apply hp
      unfold PageTable.table_path
      rw [if_pos hv]
      exact List.mem_cons_of_mem _ hmem
    · rw [if_neg hv, if_neg hv]

theorem physical_page_small_or (a c : Nat) (ha : a < 2 ^ 10) (hc : c < 2 ^ 44) :
    PageTableEntry.physical_page ⟨a ||| (c <<< 10)⟩ = c := by
  have hval : a ||| (c <<< 10) = 2 ^ 10 * c + a := by
    rw [Nat.shiftLeft_eq, Nat.mul_comm c, Nat.or_comm, ← Nat.mul_add_lt_is_or ha]
  unfold PageTableEntry.physical_page
  rw [hval, Nat.shiftRight_eq_div_pow,
    show ((1 <<< 44 : Nat) - 1) = 2 ^ 44 - 1 from by decide,
    Nat.and_pow_two_sub_one_eq_mod]
  have hdiv : (2 ^ 10 * c + a) / 2 ^ 10 = c := by omega
  rw [hdiv, Nat.mod_eq_of_lt hc]

/-- A leaf entry freshly built for frame `p` carries `p`'s frame number in
its physical-page field, whatever the permission mode. -/
theorem physical_page_build_new (p : Nat) (mode : PageTableEntryMode) (hp : p < 2 ^ 56) :
    (((PageTableEntryBuilder.new p mode).build)).physical_page = p >>> 12 := by
  have hc : p >>> 12 < 2 ^ 44 := by
    rw [Nat.shiftRight_eq_div_pow]
    omega
  cases mode <;>
    simpa [PageTableEntryBuilder.build, PageTableEntry.from_builder, PageTableEntryBuilder.new]
      using physical_page_small_or _ (p >>> 12) (by decide) hc

/-! ## Page-allocator lemmas -/

theorem foldl_dealloc_eq_reverse_append (l : List Nat) :
    ∀ acc, l.foldl PageAllocator.dealloc acc = l.reverse ++ acc := by
  induction l with
  | nil =>
    intro acc
    simp
  | cons x xs ih =>
    intro acc
    simp [PageAllocator.dealloc, ih (x :: acc)]

/-- `new` produces the frames of the range in reverse order: the last frame
deallocated (the end of the range) becomes the free-list head. -/
theorem new_eq_reverse_range (heap_start heap_end : Nat) :
    PageAllocator.new heap_start heap_end = (page_range heap_start heap_end).reverse := by
  unfold PageAllocator.new
  rw [foldl_dealloc_eq_reverse_append]
  simp

/-- Draining a free list of length `n` for `n + k` steps yields the listed
frames in order followed by `k` failures. -/
theorem drain_exact (fl : List Nat) :
    ∀ k, PageAllocator.drain fl (fl.length + k) =
      (fl.map Except.ok ++
        List.replicate k (Except.error PageAllocationError.NoPagesAvailable), []) := by
  induction fl with
  | nil =>
    intro k
    induction k with
    | zero => simp [PageAllocator.drain]
    | succ n ihn =>
      simp only [List.length_nil, Nat.zero_add] at ihn ⊢
      simp [PageAllocator.drain, PageAllocator.alloc, ihn, List.replicate_succ]
  | cons x xs ih =>
    intro k
    have hlen : (x :: xs).length + k = (xs.length + k) + 1 := by
      simp
      omega
    rw [hlen]
    simp [PageAllocator.drain, PageAllocator.alloc, ih k]

/-! ## Claim theorems -/

/-- C1 (counterexample): the claim states that a raw value with bit 38 set
and bits 39–63 clear is rejected with `OutOfVirtualMemoryRange`, while the
same value with bits 39–63 all ones is accepted unchanged.  The code does
the opposite on both inputs: `2^38` is accepted (and sign-extended to
`2^64 - 2^39 + 2^38`), and the already-sign-extended value is rejected. -/
theorem c1_counterexample :
    VirtualAddress.try_from (2 ^ 38) = .ok ⟨2 ^ 64 - 2 ^ 39 + 2 ^ 38⟩
    ∧ VirtualAddress.try_from (2 ^ 64 - 2 ^ 39 + 2 ^ 38) =
        .error VirtualAddressError.OutOfVirtualMemoryRange := by
  constructor <;> decide

/-- C1 (amended): for every raw 64-bit value, `try_from` returns
`OutOfVirtualMemoryRange` exactly when some bit above bit 38 is set (the
value is `≥ 2^39`); otherwise it accepts, storing the value sign-extended
(bit 38 copied into bits 39–63) when bit 38 is set and unchanged when it is
clear. -/
theorem c1_try_from_characterization (value : Nat) (h : value < 2 ^ 64) :
    VirtualAddress.try_from value =
      if 2 ^ 39 ≤ value then .error VirtualAddressError.OutOfVirtualMemoryRange
      else if 2 ^ 38 ≤ value then .ok ⟨value + (2 ^ 64 - 2 ^ 39)⟩
      else .ok ⟨value⟩ := by
  unfold VirtualAddress.try_from
  simp only [show compl64 ((1 <<< 39) - 1) = 2 ^ 64 - 2 ^ 39 from by decide]
  simp only [show compl64 (2 ^ 64 - 2 ^ 39) = 2 ^ 39 - 1 from by decide]
  by_cases h39 : value < 2 ^ 39
  · have h0 : value &&& (2 ^ 64 - 2 ^ 39) = 0 :=
      (and_high_mask_eq_zero_iff h (by norm_num)).mpr h39
    rw [if_neg (not_not_intro h0), if_neg (Nat.not_le.mpr h39)]
    have hbit : (value >>> 38) &&& 1 = 1 ↔ 2 ^ 38 ≤ value := by
      rw [Nat.shiftRight_eq_div_pow, Nat.and_one_is_mod]
      omega
    by_cases h38 : 2 ^ 38 ≤ value
    · rw [if_pos (hbit.mpr h38), if_pos h38, lor_high_mask_eq_add h39 (by norm_num)]
    · rw [if_neg (fun hh => h38 (hbit.mp hh)), if_neg h38,
        Nat.and_pow_two_sub_one_eq_mod, Nat.mod_eq_of_lt h39]
  · have hne : value &&& (2 ^ 64 - 2 ^ 39) ≠ 0 := by
      rw [Ne, and_high_mask_eq_zero_iff h (by norm_num)]
      exact h39
    rw [if_pos hne, if_pos (Nat.le_of_not_lt h39)]

/-- C1 (witness): the amended characterization evaluated at raw value
`2^38`: below `2^39` with bit 38 set, so it is accepted sign-extended. -/
theorem c1_witness :
    (2 : Nat) ^ 38 < 2 ^ 64
    ∧ VirtualAddress.try_from (2 ^ 38) = .ok ⟨2 ^ 38 + (2 ^ 64 - 2 ^ 39)⟩ :=
  ⟨by decide, (c1_try_from_characterization (2 ^ 38) (by decide)).trans (by decide)⟩

/-- C2: the claim says raw values with bit 63 set classify as interrupts
(`0x8000000000000005` as a timer interrupt, interrupt code 2 as reserved,
code 1 as a software interrupt).  In the code `interrupt_bit` is
`val & (1 << 63)`, which is `2^63` (never `1`) whenever bit 63 is set, so no
interrupt arm of the match can fire and every such value reaches the final
panic arm (modelled as `none`). -/
theorem c2_interrupt_values_hit_dead_arms :
    TrapCause.from_u64 0x8000000000000005 = none
    ∧ TrapCause.from_u64 0x8000000000000002 = none
    ∧ TrapCause.from_u64 0x8000000000000001 = none := by
  refine ⟨?_, ?_, ?_⟩ <;> decide

/-- C3: the claim says that after `map(v, ReadWrite)` succeeds, `translate
v` has the allocated frame in its high bits and `v`'s low 12 bits in its low
12 bits.  Evaluated on a fresh address space and the canonical address
`0x456`: `map` allocates frame `0x2000` and succeeds, but `translate`
returns `0x2000`, whose low 12 bits are `0`, not `0x456` — because
`offset()` clears the low 12 bits instead of extracting them. -/
theorem c3_map_then_translate_eval :
    VirtualAddress.try_from 0x456 = .ok ⟨0x456⟩
    ∧ vmC3.map_then_translate ⟨0x456⟩ .ReadWrite = some ⟨0x2000⟩
    ∧ (0x2000 : Nat) % 4096 ≠ 0x456 % 4096 := by
  refine ⟨?_, ?_, ?_⟩ <;> decide

/-- C4: the claim says `offset()` returns the low 12 bits (`value % 4096`).
Evaluated at the valid virtual address `0x1456`: the code returns `0x1000`
(the value with its low 12 bits cleared), not `0x456`. -/
theorem c4_offset_eval :
    VirtualAddress.try_from 0x1456 = .ok ⟨0x1456⟩
    ∧ VirtualAddress.offset ⟨0x1456⟩ = 0x1000
    ∧ (0x1456 : Nat) % 4096 = 0x456
    ∧ (0x1000 : Nat) ≠ 0x456 := by
  refine ⟨?_, ?_, ?_, ?_⟩ <;> decide

/-- C5: the claim says recombining `page_table_index(2..0)` and `offset()`
reproduces the low 39 bits of the address.  Evaluated at the canonical
address `1`: all three indices and `offset()` are `0`, so the recombination
yields `0`, not `1`. -/
theorem c5_roundtrip_eval :
    VirtualAddress.try_from 1 = .ok ⟨1⟩
    ∧ (((⟨1⟩ : VirtualAddress).page_table_index 2 <<< 30)
        ||| ((⟨1⟩ : VirtualAddress).page_table_index 1 <<< 21)
        ||| ((⟨1⟩ : VirtualAddress).page_table_index 0 <<< 12)
        ||| (⟨1⟩ : VirtualAddress).offset) = 0
    ∧ (1 : Nat) % 2 ^ 39 = 1
    ∧ (0 : Nat) ≠ 1 := by
  refine ⟨?_, ?_, ?_, ?_⟩ <;> decide

/-- C6: an allocator built by `new(start, end)` over the `N` frames of the
range answers its first `N` `alloc` calls with exactly those frames in
reverse address order (the last frame of the range first), and the
`(N+1)`-th call fails with `NoPagesAvailable`. -/
theorem c6_allocator_drains_in_reverse_order (heap_start heap_end : Nat) :
    (PageAllocator.drain (PageAllocator.new heap_start heap_end)
        (page_range heap_start heap_end).length).1
      = (page_range heap_start heap_end).reverse.map Except.ok
    ∧ (PageAllocator.drain (PageAllocator.new heap_start heap_end)
        ((page_range heap_start heap_end).length + 1)).1
      = (page_range heap_start heap_end).reverse.map Except.ok
        ++ [Except.error PageAllocationError.NoPagesAvailable] := by
  have hnew := new_eq_reverse_range heap_start heap_end
  have hlen : (page_range heap_start heap_end).length =
      (page_range heap_start heap_end).reverse.length := by simp
  constructor
  · rw [hnew, hlen, show (page_range heap_start heap_end).reverse.length =
      (page_range heap_start heap_end).reverse.length + 0 from rfl, drain_exact]
    simp
  · rw [hnew, hlen, drain_exact]
    simp

set_option maxHeartbeats 1000000 in
/-- C7: for every raw cause value whose top bit is clear, the classifier
agrees with the specification's exception table: codes
0–9, 12, 13, 15 map to the named exceptions, 24–31 and 48–63 are custom,
and everything else is reserved. -/
theorem c7_exception_classification (val : Nat) (h : val < 2 ^ 63) :
    TrapCause.from_u64 val = some (spec_exception_cause val) := by
  have hbit : val &&& (1 <<< 63) = 0 := by
    rw [show (1 <<< 63 : Nat) = 2 ^ 63 from by decide]
    exact and_two_pow_eq_zero_of_lt h
  have hcode : val &&& ((1 <<< 63) - 1) = val := by
    rw [show ((1 <<< 63 : Nat) - 1) = 2 ^ 63 - 1 from by decide,
      Nat.and_pow_two_sub_one_eq_mod, Nat.mod_eq_of_lt h]
  unfold TrapCause.from_u64
  rw [hbit, hcode]
  rw [if_neg (by omega), if_neg (by omega), if_neg (by omega), if_neg (by omega),
    if_neg (by omega)]
  simp only [eq_self_iff_true, true_and, if_true]
  unfold spec_exception_cause
  simp only [apply_ite Option.some]

/-- C7 (witness): the classification evaluated at raw value `12`, an
instruction page fault. -/
theorem c7_witness :
    (12 : Nat) < 2 ^ 63 ∧ TrapCause.from_u64 12 = some TrapCause.InstructionPageFault :=
  ⟨by decide, (c7_exception_classification 12 (by decide)).trans (by decide)⟩

/-- C8: for every address space whose root table sits below `2^56`, the
`satp` control value has `8` in bits 60–63 (Sv39 mode) and the root table's
frame number (its address shifted right by 12) in bits 0–43. -/
theorem c8_satp_layout (vm : VirtualMemory) (h : vm.root_table < 2 ^ 56) :
    vm.satp >>> 60 = 8 ∧ vm.satp &&& (2 ^ 44 - 1) = vm.root_table >>> 12 := by
  have hb : vm.root_table >>> 12 < 2 ^ 44 := by
    rw [Nat.shiftRight_eq_div_pow]
    omega
  have hor : vm.satp = 2 ^ 63 + vm.root_table >>> 12 := by
    unfold VirtualMemory.satp
    rw [show (8 <<< 60 : Nat) = 2 ^ 63 from by decide]
    have hlt63 : vm.root_table >>> 12 < 2 ^ 63 := Nat.lt_of_lt_of_le hb (by norm_num)
    have h1 := @Nat.mul_add_lt_is_or 63 (vm.root_table >>> 12) hlt63 1
    simp only [Nat.mul_one] at h1
    exact h1.symm
  constructor
  · rw [hor, Nat.shiftRight_eq_div_pow]
    omega
  · rw [hor, Nat.and_pow_two_sub_one_eq_mod]
    omega

/-- C8 (witness): the `satp` layout evaluated on an address space whose
root table sits at `0x1000`. -/
theorem c8_witness :
    vmC8.root_table < 2 ^ 56
    ∧ (vmC8.satp >>> 60 = 8 ∧ vmC8.satp &&& (2 ^ 44 - 1) = vmC8.root_table >>> 12) :=
  ⟨by decide, c8_satp_layout vmC8 (by decide)⟩

/-- C9: the claim says each flag accessor returns true exactly when its bit
is set.  In the code every one of them compares `value & (1 << k)` (which is
`0` or `2^k`) against `1`, so each accessor returns `false` on every entry
value — including entries whose flag bit is set. -/
theorem c9_flag_accessors_always_false (value : Nat) :
    PageTableEntry.is_readable ⟨value⟩ = false
    ∧ PageTableEntry.is_writable ⟨value⟩ = false
    ∧ PageTableEntry.is_executable ⟨value⟩ = false
    ∧ PageTableEntry.is_user_accessible ⟨value⟩ = false
    ∧ PageTableEntry.is_global ⟨value⟩ = false
    ∧ PageTableEntry.has_been_accessed ⟨value⟩ = false
    ∧ PageTableEntry.is_dirty ⟨value⟩ = false := by
  unfold PageTableEntry.is_readable PageTableEntry.is_writable PageTableEntry.is_executable
    PageTableEntry.is_user_accessible PageTableEntry.is_global
    PageTableEntry.has_been_accessed PageTableEntry.is_dirty
  refine ⟨?_, ?_, ?_, ?_, ?_, ?_, ?_⟩ <;>
    · rw [show ∀ k, (1 <<< k : Nat) = 2 ^ k from fun k => by
        rw [Nat.shiftLeft_eq, Nat.one_mul]]
      exact beq_eq_false_iff_ne.mpr (and_two_pow_ne_one (by decide))

/-- C10: when the level-0 slot for a canonical address already holds a valid
leaf entry and a free frame `p` (frame-aligned, off the walk path) is
available, a further `map` succeeds, consumes exactly `p`, overwrites the
leaf slot with a fresh entry whose physical page is `p`'s frame number, and
returns nothing to the allocator — in particular not the previously mapped
frame. -/
theorem c10_map_overwrites_existing_leaf
    (vm : VirtualMemory) (virt : VirtualAddress) (mode : PageTableEntryMode)
    (p : Nat) (rest : List Nat) (t i : Nat)
    (hfree : vm.free_list = p :: rest)
    (hwalk : PageTable.walk vm.mem vm.root_table virt = some (t, i))
    (_hvalid : (PageTableEntry.mk (vm.mem t i)).is_valid = true)
    (_hleaf : (PageTableEntry.mk (vm.mem t i)).is_leaf = true)
    (hpath : p ∉ PageTable.table_path vm.mem vm.root_table virt 2)
    (halign : p % 4096 = 0) (hsize : p < 2 ^ 56) :
    ∃ vm' : VirtualMemory,
      vm.map virt mode = .ok vm'
      ∧ vm'.free_list = rest
      ∧ vm'.root_table = vm.root_table
      ∧ vm'.mem t i = ((PageTableEntryBuilder.new p mode).build).value
      ∧ (PageTableEntry.mk (vm'.mem t i)).physical_page <<< 12 = p := by
  have hw2 : PageTable.do_walk (vm.mem.zero_frame p) vm.root_table virt 2 = some (t, i) := by
    rw [do_walk_zero_frame_off_path virt vm.mem p 2 vm.root_table hpath]
    exact hwalk
  have hwam := do_walk_and_map_of_do_walk virt (vm.mem.zero_frame p) rest 2 vm.root_table
    (t, i) hw2
  refine ⟨⟨Memory.write (vm.mem.zero_frame p) t i
    ((PageTableEntryBuilder.new p mode).build).value, rest, vm.root_table⟩, ?_, rfl, rfl, ?_, ?_⟩
  · unfold VirtualMemory.map VirtualMemory.alloc
    rw [hfree]
    unfold VirtualMemory.map_to PageTable.walk_and_map
    simp only [hwam]
  · simp [Memory.write]
  · simp only [Memory.write, and_self, if_pos]
    rw [physical_page_build_new p mode hsize, Nat.shiftRight_eq_div_pow, Nat.shiftLeft_eq]
    omega

/-- C10 (witness): the remapping theorem evaluated on `vmC10`, where virtual
address 0 is already mapped to frame `0x4000` through tables `0x1000 →
0x2000 → 0x3000` and frame `0x5000` is free. -/
theorem c10_witness :
    vmC10.free_list = [0x5000]
    ∧ PageTable.walk vmC10.mem vmC10.root_table ⟨0⟩ = some (0x3000, 0)
    ∧ (PageTableEntry.mk (vmC10.mem 0x3000 0)).is_valid = true
    ∧ (PageTableEntry.mk (vmC10.mem 0x3000 0)).is_leaf = true
    ∧ (0x5000 : Nat) ∉ PageTable.table_path vmC10.mem vmC10.root_table ⟨0⟩ 2
    ∧ (0x5000 : Nat) % 4096 = 0
    ∧ (0x5000 : Nat) < 2 ^ 56
    ∧ ∃ vm' : VirtualMemory,
        vmC10.map ⟨0⟩ .ReadWrite = .ok vm'
        ∧ vm'.free_list = []
        ∧ vm'.root_table = vmC10.root_table
        ∧ vm'.mem 0x3000 0 = ((PageTableEntryBuilder.new 0x5000 .ReadWrite).build).value
        ∧ (PageTableEntry.mk (vm'.mem 0x3000 0)).physical_page <<< 12 = 0x5000 :=
  ⟨rfl, by decide, by decide, by decide, by decide, by decide, by decide,
    c10_map_overwrites_existing_leaf vmC10 ⟨0⟩ .ReadWrite 0x5000 [] 0x3000 0 rfl
      (by decide) (by decide) (by decide) (by decide) (by decide) (by decide)⟩

end RiscvOS
